import Mathlib

/-!
Verification development for the py-kernel processor/flow runtime.

Each component of the repository that the checked properties touch is
shallowly embedded as executable Lean definitions: Python dicts become
insertion-ordered association lists, sets become duplicate-free lists,
object identities become numbers, and the cooperative task queue of the
execution context becomes an explicit FIFO list of task values threaded
through the state.  Method bodies are translated line by line from
`src/flows.py`, `src/library.py` and `src/daemon.py`.
-/

set_option maxRecDepth 8000

namespace PyKernel

/-! ## Python dictionary primitive (insertion ordered) -/

namespace pydict

/-- Python `d[k] = v`: replace in place when the key is present, else append. -/
def set {κ α : Type} [DecidableEq κ] (m : List (κ × α)) (k : κ) (v : α) :
    List (κ × α) :=
  if m.any (fun p => decide (p.1 = k)) then
    m.map (fun p => if p.1 = k then (k, v) else p)
  else
    m ++ [(k, v)]

/-- Python `d.get(k)` / `d[k]` lookup. -/
def get? {κ α : Type} [DecidableEq κ] (m : List (κ × α)) (k : κ) : Option α :=
  (m.find? (fun p => decide (p.1 = k))).map (fun p => p.2)

/-- Python `del d[k]` / `d.pop(k)` removal of a binding. -/
def del {κ α : Type} [DecidableEq κ] (m : List (κ × α)) (k : κ) : List (κ × α) :=
  m.filter (fun p => decide (p.1 ≠ k))

end pydict

theorem pydict.set_cons_ne {κ α : Type} [DecidableEq κ] (a : κ) (b : α)
    (t : List (κ × α)) (k : κ) (v : α) (h : a ≠ k) :
    pydict.set ((a, b) :: t) k v = (a, b) :: pydict.set t k v := by
  unfold pydict.set
  have hd : decide (a = k) = false := by simp [h]
  simp only [List.any_cons, hd, Bool.false_or]
  split
  · next hc => simp [hc, h]
  · next hc => simp [hc]

theorem pydict.get?_set_self {κ α : Type} [DecidableEq κ] (m : List (κ × α))
    (k : κ) (v : α) : pydict.get? (pydict.set m k v) k = some v := by
  induction m with
  | nil => simp [pydict.set, pydict.get?]
  | cons a t ih =>
    by_cases hk : a.1 = k
    · unfold pydict.set
      have hd : decide (a.1 = k) = true := by simp [hk]
      simp only [List.any_cons, hd, Bool.true_or, if_true]
      simp [pydict.get?, hk]
    · rw [show (a : κ × α) = (a.1, a.2) from rfl, pydict.set_cons_ne a.1 a.2 t k v hk]
      simp only [pydict.get?, List.find?] at ih ⊢
      simp [hk, ih]

theorem pydict.get?_del_self {κ α : Type} [DecidableEq κ] (m : List (κ × α))
    (k : κ) : pydict.get? (pydict.del m k) k = none := by
  have hf : List.find? (fun p => decide (p.1 = k)) (pydict.del m k) = none := by
    rw [List.find?_eq_none]
    intro x hx
    unfold pydict.del at hx
    have h2 := (List.mem_filter.mp hx).2
    simp only [decide_eq_true_eq] at h2
    simp [h2]
  simp [pydict.get?, hf]

/-! ## flows.Channel: obstruction registry and monitors

State and methods of `Channel` in `src/flows.py` (lines 302-364):
`f_obstruct`, `f_clear`, `f_watch`, `f_ignore` and the `f_obstructed`
property.  The monitor callbacks are identified by number; invoking
`sentry[0](self)` or `sentry[1](self)` is recorded as an `MEvent` in the
invocation log a call returns. -/

namespace flows

/-- Identity of the object passed as the obstruction key to `f_obstruct`. -/
abbrev Key := Nat

/-- Modelled from the spec: `core.Condition` (the `core` module of the package
is not among the staged source files; `src/flows.py` imports it).  Per the
spec a Condition is the reified boolean `(focus, path, parameter|nil)` over a
target object.  `Channel.f_obstruct` only stores it, so it is carried here as
inert data; `focus` is the object identity. -/
structure Condition where
  focus : Nat
  path : List String
  parameter : Option Nat := none
deriving DecidableEq

/-- The `signal` argument of `f_obstruct`; stored uninterpreted. -/
abbrev Signal := Option Nat

/-- Identity of one `(onObstruct, onClear)` callback pair held in `f_monitors`. -/
abbrev Monitor := Nat

/-- One monitor-callback invocation: `sentry[0](self)` resp. `sentry[1](self)`. -/
inductive MEvent where
  | onObstruct (m : Monitor)
  | onClear (m : Monitor)
deriving DecidableEq

/-- The obstruction-related state of `flows.Channel`: `f_obstructions` is
`None` or a dict keyed by the obstructing object, `f_monitors` is `None` or a
set of callback pairs (modelled as a duplicate-free insertion-ordered list,
since the source iterates a `set`). -/
structure ChannelState where
  f_obstructions : Option (List (Key × (Signal × Condition))) := none
  f_monitors : Option (List Monitor) := none
deriving DecidableEq

/-- The monitor set as a list (`None` behaves as the empty set). -/
def monList (s : ChannelState) : List Monitor := s.f_monitors.getD []

/-- Property `Channel.f_obstructed`: `self.f_obstructions is not None`. -/
def f_obstructed (s : ChannelState) : Bool := s.f_obstructions.isSome

/-- `Channel.f_obstruct(self, by, signal=None, condition=None)` (flows.py
302-321).  `first` is the truthiness test `if not self.f_obstructions`; the
dict is created when it was `None`; the entry is stored under `by`; the
`onObstruct` monitors fire only when `first` and `self.f_monitors` is truthy. -/
def f_obstruct (s : ChannelState) (key : Key) (signal : Signal)
    (condition : Condition) : ChannelState × List MEvent :=
  let first : Bool :=
    match s.f_obstructions with
    | none => true
    | some m => m.isEmpty
  let obs0 := s.f_obstructions.getD []
  let obs1 := pydict.set obs0 key (signal, condition)
  let fired :=
    if first && !(monList s).isEmpty then (monList s).map MEvent.onObstruct
    else []
  ({ s with f_obstructions := some obs1 }, fired)

/-- `Channel.f_clear(self, obstruction)` (flows.py 323-343).  Removes the
binding when present; when the dict empties it is reset to `None`, the
`onClear` monitors fire, and `True` is returned. -/
def f_clear (s : ChannelState) (obstruction : Key) :
    ChannelState × List MEvent × Bool :=
  match s.f_obstructions with
  | none => (s, [], false)
  | some fObs =>
    if fObs.isEmpty then (s, [], false)
    else if (pydict.get? fObs obstruction).isSome then
      let fObs2 := pydict.del fObs obstruction
      if fObs2.isEmpty then
        ({ s with f_obstructions := none },
         (if (monList s).isEmpty then [] else (monList s).map MEvent.onClear),
         true)
      else
        ({ s with f_obstructions := some fObs2 }, [], false)
    else (s, [], false)

/-- `Channel.f_watch(self, obstructed, cleared)` (flows.py 345-356).  The
monitor set is created on demand, the pair added, and when the channel is
currently obstructed the `obstructed` callback is invoked immediately. -/
def f_watch (s : ChannelState) (m : Monitor) : ChannelState × List MEvent :=
  let mons := monList s
  let mons2 := if m ∈ mons then mons else mons ++ [m]
  let s2 : ChannelState := { s with f_monitors := some mons2 }
  if f_obstructed s2 then (s2, [MEvent.onObstruct m]) else (s2, [])

/-- `Channel.f_ignore(self, obstructed, cleared)` (flows.py 358-364). -/
def f_ignore (s : ChannelState) (m : Monitor) : ChannelState :=
  match s.f_monitors with
  | none => s
  | some mons => { s with f_monitors := some (mons.filter (fun x => decide (x ≠ m))) }

/-- One call of the obstruct/clear interface, for sequences of calls. -/
inductive ObsOp where
  | obstruct (key : Key) (signal : Signal) (condition : Condition)
  | clear (key : Key)

/-- Dispatch one call to the corresponding method, keeping the fired log. -/
def obsStep (s : ChannelState) (op : ObsOp) : ChannelState × List MEvent :=
  match op with
  | .obstruct k sig c => f_obstruct s k sig c
  | .clear k =>
    let r := f_clear s k
    (r.1, r.2.1)

/-- Run a sequence of obstruct/clear calls, concatenating the monitor logs. -/
def obsRun (s : ChannelState) : List ObsOp → ChannelState × List MEvent
  | [] => (s, [])
  | op :: rest =>
    let r := obsStep s op
    let r2 := obsRun r.1 rest
    (r2.1, r.2 ++ r2.2)

/-- Number of transitions from no obstruction to at least one obstruction
along the run of the given call sequence. -/
def upTransitions (s : ChannelState) : List ObsOp → Nat
  | [] => 0
  | op :: rest =>
    let s2 := (obsStep s op).1
    (if !f_obstructed s && f_obstructed s2 then 1 else 0) + upTransitions s2 rest

/-- Number of transitions from at least one obstruction back to none. -/
def downTransitions (s : ChannelState) : List ObsOp → Nat
  | [] => 0
  | op :: rest =>
    let s2 := (obsStep s op).1
    (if f_obstructed s && !f_obstructed s2 then 1 else 0) +
      downTransitions s2 rest

/-- Reachable-state invariant: the obstruction dict is never the empty dict
(the source resets it to `None` whenever it empties). -/
def ObsOk (s : ChannelState) : Prop := s.f_obstructions ≠ some []

/-! ### Lemmas about the obstruction registry -/

theorem pydict_set_ne_nil {κ α : Type} [DecidableEq κ] (m : List (κ × α))
    (k : κ) (v : α) : pydict.set m k v ≠ [] := by
  unfold pydict.set
  split
  · next h =>
    cases m with
    | nil => simp at h
    | cons a t => simp
  · cases m <;> simp

theorem f_obstruct_obstructed (s : ChannelState) (k : Key) (sig : Signal)
    (c : Condition) : f_obstructed (f_obstruct s k sig c).1 = true := by
  simp [f_obstruct, f_obstructed]

theorem f_obstruct_monitors (s : ChannelState) (k : Key) (sig : Signal)
    (c : Condition) : (f_obstruct s k sig c).1.f_monitors = s.f_monitors := rfl

theorem f_clear_monitors (s : ChannelState) (k : Key) :
    (f_clear s k).1.f_monitors = s.f_monitors := by
  unfold f_clear
  cases hobs : s.f_obstructions with
  | none => rfl
  | some l =>
    dsimp only
    split
    · rfl
    · split
      · split
        · rfl
        · rfl
      · rfl

theorem f_obstruct_ok (s : ChannelState) (k : Key) (sig : Signal)
    (c : Condition) : ObsOk (f_obstruct s k sig c).1 := by
  unfold ObsOk f_obstruct
  intro h
  exact pydict_set_ne_nil (s.f_obstructions.getD []) k (sig, c)
    (by simpa using h)

theorem f_clear_ok (s : ChannelState) (k : Key) (h : ObsOk s) :
    ObsOk (f_clear s k).1 := by
  unfold f_clear
  cases hobs : s.f_obstructions with
  | none => exact h
  | some l =>
    dsimp only
    split
    · exact h
    · split
      · split
        · intro e
          exact Option.noConfusion e
        · next hdel =>
          intro e
          have e2 : some (pydict.del l k)
              = some ([] : List (Key × Signal × Condition)) := e
          rw [show pydict.del l k = [] from by injection e2] at hdel
          simp at hdel
      · exact h

theorem f_obstruct_fired (s : ChannelState) (k : Key) (sig : Signal)
    (c : Condition) (h : ObsOk s) :
    (f_obstruct s k sig c).2
      = if f_obstructed s then [] else (monList s).map MEvent.onObstruct := by
  unfold f_obstruct f_obstructed
  cases hobs : s.f_obstructions with
  | none =>
    cases hm : monList s <;> simp [hm]
  | some l =>
    have hne : l ≠ [] := fun e => h (by rw [hobs, e])
    have hie : l.isEmpty = false := by cases l <;> simp_all
    simp [hie]

theorem f_clear_fired (s : ChannelState) (k : Key) (h : ObsOk s) :
    (f_clear s k).2.1
      = if f_obstructed s && !f_obstructed (f_clear s k).1
        then (monList s).map MEvent.onClear else [] := by
  unfold f_clear f_obstructed
  cases hobs : s.f_obstructions with
  | none => simp [hobs]
  | some l =>
    have hne : l ≠ [] := fun e => h (by rw [hobs, e])
    have hie : l.isEmpty = false := by cases l <;> simp_all
    dsimp only
    rw [hie]
    simp only [Bool.false_eq_true, if_false]
    split
    · split
      · cases hm : monList s <;> simp [hobs, hm]
      · simp [hobs]
    · simp [hobs]

theorem f_clear_of_none (s : ChannelState) (k : Key)
    (h : s.f_obstructions = none) : f_clear s k = (s, [], false) := by
  unfold f_clear
  rw [h]

theorem f_clear_removed (s : ChannelState) (k : Key) :
    PyKernel.pydict.get? (((f_clear s k).1.f_obstructions).getD []) k = none := by
  unfold f_clear
  cases hobs : s.f_obstructions with
  | none => simp [hobs, PyKernel.pydict.get?]
  | some l =>
    dsimp only
    split
    · next hie =>
      have hl : l = [] := by cases l <;> simp_all
      simp [hobs, hl, PyKernel.pydict.get?]
    · next hie =>
      split
      · next hget =>
        split
        · simp [PyKernel.pydict.get?]
        · next hdel =>
          simp only [Option.getD_some]
          exact PyKernel.pydict.get?_del_self l k
      · next hget =>
        simp only [hobs, Option.getD_some]
        exact Option.not_isSome_iff_eq_none.mp hget

theorem count_map_onObstruct (m : Monitor) (mons : List Monitor) :
    (mons.map MEvent.onObstruct).count (MEvent.onObstruct m) = mons.count m := by
  induction mons with
  | nil => rfl
  | cons a t ih => simp [List.count_cons, ih]

theorem count_map_onClear (m : Monitor) (mons : List Monitor) :
    (mons.map MEvent.onClear).count (MEvent.onClear m) = mons.count m := by
  induction mons with
  | nil => rfl
  | cons a t ih => simp [List.count_cons, ih]

theorem count_onObstruct_in_onClear (m : Monitor) (mons : List Monitor) :
    (mons.map MEvent.onClear).count (MEvent.onObstruct m) = 0 := by
  induction mons with
  | nil => rfl
  | cons a t ih => simp [List.count_cons, ih]

theorem count_onClear_in_onObstruct (m : Monitor) (mons : List Monitor) :
    (mons.map MEvent.onObstruct).count (MEvent.onClear m) = 0 := by
  induction mons with
  | nil => rfl
  | cons a t ih => simp [List.count_cons, ih]

theorem obsStep_counts (s : ChannelState) (op : ObsOp) (m : Monitor)
    (mons : List Monitor) (hok : ObsOk s) (hm : s.f_monitors = some mons) :
    ((obsStep s op).2.count (MEvent.onObstruct m)
        = (if !f_obstructed s && f_obstructed (obsStep s op).1 then 1 else 0)
            * mons.count m)
    ∧ ((obsStep s op).2.count (MEvent.onClear m)
        = (if f_obstructed s && !f_obstructed (obsStep s op).1 then 1 else 0)
            * mons.count m) := by
  have hmons : monList s = mons := by simp [monList, hm]
  cases op with
  | obstruct k sig c =>
    have hfired := f_obstruct_fired s k sig c hok
    have hafter := f_obstruct_obstructed s k sig c
    dsimp only [obsStep]
    rw [hfired, hafter, hmons]
    cases hb : f_obstructed s with
    | true => simp
    | false => simp [count_map_onObstruct, count_onClear_in_onObstruct]
  | clear k =>
    have hfired := f_clear_fired s k hok
    dsimp only [obsStep]
    rw [hfired, hmons]
    cases hb : f_obstructed s with
    | false =>
      have hobs : s.f_obstructions = none := by
        cases hobs : s.f_obstructions with
        | none => rfl
        | some l => rw [f_obstructed, hobs] at hb; simp at hb
      rw [f_clear_of_none s k hobs]
      simp [hb]
    | true =>
      cases hb2 : f_obstructed (f_clear s k).1 with
      | true => simp
      | false => simp [count_map_onClear, count_onObstruct_in_onClear]

theorem obsRun_counts (m : Monitor) (mons : List Monitor) :
    ∀ (ops : List ObsOp) (s : ChannelState), ObsOk s →
      s.f_monitors = some mons →
      ((obsRun s ops).2.count (MEvent.onObstruct m)
          = upTransitions s ops * mons.count m)
      ∧ ((obsRun s ops).2.count (MEvent.onClear m)
          = downTransitions s ops * mons.count m) := by
  intro ops
  induction ops with
  | nil =>
    intro s hok hm
    simp [obsRun, upTransitions, downTransitions]
  | cons op rest ih =>
    intro s hok hm
    have hok2 : ObsOk (obsStep s op).1 := by
      cases op with
      | obstruct k sig c => exact f_obstruct_ok s k sig c
      | clear k => exact f_clear_ok s k hok
    have hm2 : (obsStep s op).1.f_monitors = some mons := by
      cases op with
      | obstruct k sig c =>
        show (f_obstruct s k sig c).1.f_monitors = some mons
        rw [f_obstruct_monitors, hm]
      | clear k =>
        show (f_clear s k).1.f_monitors = some mons
        rw [f_clear_monitors, hm]
    have ihr := ih (obsStep s op).1 hok2 hm2
    have hstep := obsStep_counts s op m mons hok hm
    have hrun : (obsRun s (op :: rest)).2
        = (obsStep s op).2 ++ (obsRun (obsStep s op).1 rest).2 := rfl
    have hup : upTransitions s (op :: rest)
        = (if !f_obstructed s && f_obstructed (obsStep s op).1 then 1 else 0)
            + upTransitions (obsStep s op).1 rest := rfl
    have hdown : downTransitions s (op :: rest)
        = (if f_obstructed s && !f_obstructed (obsStep s op).1 then 1 else 0)
            + downTransitions (obsStep s op).1 rest := rfl
    constructor
    · rw [hrun, List.count_append, hstep.1, ihr.1, hup, add_mul]
    · rw [hrun, List.count_append, hstep.2, ihr.2, hdown, add_mul]

/-- C3: for every Channel, over any sequence of `f_obstruct` and `f_clear`
calls, each registered `onObstruct` monitor callback is invoked exactly once
per transition from zero obstructions to one or more, each `onClear`
callback exactly once per transition from one or more back to zero, and a
second `f_obstruct` (under any key) on an already obstructed channel
produces no monitor calls at all. -/
theorem channel_monitor_transitions (mons : List Monitor) (hnd : mons.Nodup)
    (ops : List ObsOp) (m : Monitor) :
    (((obsRun ⟨none, some mons⟩ ops).2.count (MEvent.onObstruct m)
        = if m ∈ mons then upTransitions ⟨none, some mons⟩ ops else 0)
      ∧ ((obsRun ⟨none, some mons⟩ ops).2.count (MEvent.onClear m)
        = if m ∈ mons then downTransitions ⟨none, some mons⟩ ops else 0))
    ∧ ∀ (s : ChannelState) (k : Key) (sig : Signal) (c : Condition),
        ObsOk s → f_obstructed s = true → (f_obstruct s k sig c).2 = [] := by
  have hcnt : mons.count m = if m ∈ mons then 1 else 0 := by
    by_cases hmem : m ∈ mons
    · simp [hmem, List.count_eq_one_of_mem hnd hmem]
    · simp [hmem, List.count_eq_zero_of_not_mem hmem]
  have h0 : ObsOk (⟨none, some mons⟩ : ChannelState) := by
    intro e
    exact Option.noConfusion e
  have hr := obsRun_counts m mons ops ⟨none, some mons⟩ h0 rfl
  refine ⟨⟨?_, ?_⟩, ?_⟩
  · rw [hr.1, hcnt]
    by_cases hmem : m ∈ mons <;> simp [hmem]
  · rw [hr.2, hcnt]
    by_cases hmem : m ∈ mons <;> simp [hmem]
  · intro s k sig c hok hobs
    rw [f_obstruct_fired s k sig c hok, hobs]
    rfl

/-- Witness for C3 at a concrete channel: one monitor `7`, obstruct under
key 1, obstruct under key 2 (no extra call), clear 1, clear 2: exactly one
`onObstruct` and one `onClear` invocation. -/
theorem channel_monitor_transitions_witness :
    ((obsRun ⟨none, some [7]⟩
        [ObsOp.obstruct 1 none ⟨0, ["c"], none⟩,
         ObsOp.obstruct 2 none ⟨0, ["c"], none⟩,
         ObsOp.clear 1, ObsOp.clear 2]).2.count (MEvent.onObstruct 7) = 1)
    ∧ ((obsRun ⟨none, some [7]⟩
        [ObsOp.obstruct 1 none ⟨0, ["c"], none⟩,
         ObsOp.obstruct 2 none ⟨0, ["c"], none⟩,
         ObsOp.clear 1, ObsOp.clear 2]).2.count (MEvent.onClear 7) = 1) := by
  have h := channel_monitor_transitions [7] (by decide)
    [ObsOp.obstruct 1 none ⟨0, ["c"], none⟩,
     ObsOp.obstruct 2 none ⟨0, ["c"], none⟩,
     ObsOp.clear 1, ObsOp.clear 2] 7
  exact ⟨h.1.1.trans (by decide), h.1.2.trans (by decide)⟩

/-- C9: `f_watch` on a currently obstructed Channel immediately invokes the
newly registered `onObstruct` callback (and only it); on an unobstructed
channel it invokes nothing; in both cases the pair is added to the monitor
set and the obstruction state is untouched. -/
theorem f_watch_immediate (s : ChannelState) (m : Monitor) :
    ((f_watch s m).2
        = if f_obstructed s then [MEvent.onObstruct m] else [])
    ∧ m ∈ monList (f_watch s m).1
    ∧ (∀ x, x ∈ monList s → x ∈ monList (f_watch s m).1)
    ∧ (f_watch s m).1.f_obstructions = s.f_obstructions := by
  unfold f_watch
  by_cases hmem : m ∈ monList s <;>
    cases hobs : f_obstructed s <;>
      simp_all [f_obstructed, monList]

/-- Witness for C9: watching an obstructed channel fires the new callback
once; watching an unobstructed one fires nothing. -/
theorem f_watch_immediate_witness :
    ((f_watch ⟨some [(1, (none, ⟨0, ["c"], none⟩))], none⟩ 5).2
        = [MEvent.onObstruct 5])
    ∧ 5 ∈ monList (f_watch ⟨some [(1, (none, ⟨0, ["c"], none⟩))], none⟩ 5).1
    ∧ ((f_watch ⟨none, none⟩ 5).2 = []) := by
  refine ⟨?_, (f_watch_immediate ⟨some [(1, (none, ⟨0, ["c"], none⟩))], none⟩ 5).2.1, ?_⟩
  · exact (f_watch_immediate ⟨some [(1, (none, ⟨0, ["c"], none⟩))], none⟩ 5).1.trans
      (by decide)
  · exact ((f_watch_immediate ⟨none, none⟩ 5).1).trans (by decide)

end flows

/-! ## flows.KOutput: bounded kernel-output queue

`KOutput` (src/flows.py 1018-1099) keeps a FIFO `ko_queue` of buffers to be
handed to the kernel transit one at a time.  Buffers are identified by
number; `resource` models `transit.resource` (the buffer currently acquired
by the kernel, `None` when no transfer is in flight). -/

namespace kio

/-- Class attribute `KOutput.ko_limit` (default 16 queue entries). -/
def ko_limit : Nat := 16

/-- State of a KOutput channel: the Channel base state plus the queue and
transit fields used by `process`/`k_transition`. -/
structure KOutputState where
  chan : flows.ChannelState := {}
  ko_queue : List Nat := []
  k_transferred : Option Nat := none
  resource : Option Nat := none
  transit_terminated : Bool := false
  terminating : Bool := false

/-- The identity of the KOutput channel itself: `self.f_obstruct(self, ...)`
and `self.f_clear(self)` use the channel object as the key. -/
def selfKey : flows.Key := 0

/-- Property `KOutput.ko_overflow`: `len(self.ko_queue) > self.ko_limit`. -/
def ko_overflow (s : KOutputState) : Bool := s.ko_queue.length > ko_limit

/-- `KOutput.k_transition` (flows.py 1049-1062): acquire the next queued
buffer, or, when the queue has drained, drop the transfer marker, clear the
self-obstruction, and terminate the transit if termination was requested. -/
def k_transition (s : KOutputState) : KOutputState :=
  match s.ko_queue with
  | nb :: rest =>
    { s with ko_queue := rest, resource := some nb, k_transferred := some 0 }
  | [] =>
    let s1 := { s with k_transferred := none }
    let s2 := { s1 with chan := (flows.f_clear s1.chan selfKey).1 }
    if s2.terminating then { s2 with transit_terminated := true } else s2

/-- `KOutput.process` (flows.py 1064-1080): extend the queue unconditionally;
when no transfer is in flight start one via `k_transition`, otherwise
obstruct the channel with `Condition(self, ('ko_overflow',))` if the queue
now exceeds `ko_limit`. -/
def KOutput.process (s : KOutputState) (event : List Nat) : KOutputState :=
  let s1 := { s with ko_queue := s.ko_queue ++ event }
  match s1.k_transferred with
  | none => k_transition s1
  | some _ =>
    if s1.ko_queue.length > ko_limit then
      { s1 with chan := (flows.f_obstruct s1.chan selfKey none
          ⟨selfKey, ["ko_overflow"], none⟩).1 }
    else s1

/-- C4 counterexample: an idle KOutput (no transfer in flight, empty queue)
given 18 buffers in one `process` call pops one buffer into the transit and
leaves 17 queued, which exceeds `ko_limit = 16`, yet the channel is *not*
obstructed: the overflow check sits only on the branch taken while a
transfer is already in flight. -/
theorem koutput_overflow_unobstructed :
    ((KOutput.process {} (List.range 18)).ko_queue.length > ko_limit)
    ∧ flows.f_obstructed (KOutput.process {} (List.range 18)).chan = false := by
  decide

/-- C4 (amended): when `process(events)` is called while a transfer is in
flight and it leaves the queue with more than `ko_limit` entries, the channel
obstructs itself under its own key with `Condition(self, ('ko_overflow',))`;
and `k_transition` clears the self-obstruction exactly when it finds the
queue drained empty (otherwise it leaves the obstruction state untouched). -/
theorem koutput_overflow_obstructs :
    (∀ (s : KOutputState) (evs : List Nat), s.k_transferred ≠ none →
      (KOutput.process s evs).ko_queue.length > ko_limit →
      pydict.get? ((KOutput.process s evs).chan.f_obstructions.getD []) selfKey
          = some (none, ⟨selfKey, ["ko_overflow"], none⟩)
        ∧ flows.f_obstructed (KOutput.process s evs).chan = true)
    ∧ (∀ s : KOutputState, s.ko_queue = [] →
        pydict.get? ((k_transition s).chan.f_obstructions.getD []) selfKey = none)
    ∧ (∀ s : KOutputState, s.ko_queue ≠ [] → (k_transition s).chan = s.chan) := by
  refine ⟨?_, ?_, ?_⟩
  · intro s evs hk hlen
    cases htr : s.k_transferred with
    | none => exact absurd htr hk
    | some n =>
      unfold KOutput.process at hlen ⊢
      simp only [htr] at hlen ⊢
      split at hlen
      · next hcond =>
        rw [if_pos hcond]
        refine ⟨?_, flows.f_obstruct_obstructed _ _ _ _⟩
        show pydict.get?
            ((some (pydict.set ((s.chan.f_obstructions).getD []) selfKey
              (none, ⟨selfKey, ["ko_overflow"], none⟩))).getD []) selfKey = _
        exact pydict.get?_set_self _ selfKey _
      · next hcond => exact absurd hlen hcond
  · intro s hq
    unfold k_transition
    rw [hq]
    dsimp only
    split
    · exact flows.f_clear_removed s.chan selfKey
    · exact flows.f_clear_removed s.chan selfKey
  · intro s hq
    cases hqq : s.ko_queue with
    | nil => exact absurd hqq hq
    | cons a t => unfold k_transition; rw [hqq]

/-- Witness for the amended C4: a KOutput with a transfer in flight and 16
queued buffers receives one more buffer and becomes obstructed under its own
key with the `ko_overflow` condition; `k_transition` on an obstructed channel
with a drained queue removes that obstruction. -/
theorem koutput_overflow_obstructs_witness :
    (pydict.get? ((KOutput.process
        { ko_queue := List.range 16, k_transferred := some 0, resource := some 99 }
        [100]).chan.f_obstructions.getD []) selfKey
      = some (none, ⟨selfKey, ["ko_overflow"], none⟩))
    ∧ pydict.get? ((k_transition
        { chan := ⟨some [(selfKey, (none, ⟨selfKey, ["ko_overflow"], none⟩))], none⟩,
          k_transferred := some 0 }).chan.f_obstructions.getD []) selfKey = none := by
  exact ⟨(koutput_overflow_obstructs.1 _ [100] (by decide) (by decide)).1,
    koutput_overflow_obstructs.2.1 _ (by decide)⟩

end kio

/-! ## library.Ports: listening-descriptor sets

`Ports` (src/library.py 4381-4514) maps slot names to dicts of
endpoint to kernel file descriptor.  Endpoints are opaque numbered values
whose `protocol` is not `local`, so the filesystem-socket clean-up loop in
`bind` is a no-op for them; `self.context.bindings(*endpoints)` is modelled
by an explicit list of fresh descriptors. -/

namespace ports

abbrev Endpoint := Nat

abbrev FD := Nat

abbrev Slot := String

abbrev SetsMap := List (Slot × List (Endpoint × FD))

/-- A pickled Python value: `pickle.dump` writes one value and `pickle.load`
returns it unchanged, whatever its type turns out to be. -/
inductive PyVal where
  | map (m : SetsMap)
  | str (s : String)
deriving DecidableEq

/-- The `sets` attribute of a Ports device, as a Python value (after `load`
it holds whatever was unpickled). -/
structure PortsState where
  sets : PyVal

/-- `Ports.store(self, route)` (library.py 4506-4514): opens `route` for
writing and executes `pickle.dump(str(route), f)` - it pickles the *string
of the route*, not `self.sets`.  The blob written to the file is returned. -/
def Ports.store (_p : PortsState) (route : String) : PyVal :=
  PyVal.str route

/-- `Ports.load(self, route)` (library.py 4496-4504): `self.sets =
pickle.load(f)`; `blob` is what the file at the route holds. -/
def Ports.load (p : PortsState) (blob : PyVal) : PortsState :=
  { p with sets := blob }

/-- C6: `store` followed by `load` is not a round trip over the port-set
state.  For a Ports whose sets map slot `service` to one bound endpoint,
storing to `/daemon/ports` and loading back leaves `sets` equal to the path
string `/daemon/ports`, not to the original mapping: `store` pickles
`str(route)` where its docstring says it stores the Ports state. -/
theorem ports_store_load_not_roundtrip :
    (Ports.load { sets := PyVal.map [("service", [(7, 3)])] }
        (Ports.store { sets := PyVal.map [("service", [(7, 3)])] } "/daemon/ports")).sets
      = PyVal.str "/daemon/ports"
    ∧ (Ports.load { sets := PyVal.map [("service", [(7, 3)])] }
        (Ports.store { sets := PyVal.map [("service", [(7, 3)])] } "/daemon/ports")).sets
      ≠ PyVal.map [("service", [(7, 3)])] := by
  exact ⟨rfl, by decide⟩

/-- `self.sets[slot]` under `collections.defaultdict(dict)`: a missing slot
reads as the empty dict. -/
def slotGet (sets : SetsMap) (slot : Slot) : List (Endpoint × FD) :=
  (pydict.get? sets slot).getD []

/-- Writing back a slot's dict. -/
def slotSet (sets : SetsMap) (slot : Slot) (d : List (Endpoint × FD)) : SetsMap :=
  pydict.set sets slot d

/-- `Ports.bind(self, slot, *endpoints)` (library.py 4424-4444) for non-local
endpoints: each endpoint is added to the slot's dict with the descriptor the
context bound for it (`fds`, zipped exactly as the source zips). -/
def Ports.bind (sets : SetsMap) (slot : Slot) (endpoints : List Endpoint)
    (fds : List FD) : SetsMap :=
  slotSet sets slot
    ((endpoints.zip fds).foldl (fun d p => pydict.set d p.1 p.2)
      (slotGet sets slot))

/-- An argument received by `Ports.close` through its `*endpoints` tuple:
either an endpoint, or - as happens in `Ports.replace` - a whole Python
`set` of endpoints passed as one positional argument. -/
inductive CloseArg where
  | ep (e : Endpoint)
  | unhashableSet (s : List Endpoint)

/-- `sd.pop(x, None)`: the key is hashed first, so an (unhashable) `set` key
raises `TypeError` before any lookup. -/
def dictPop (d : List (Endpoint × FD)) (k : CloseArg) :
    Except String (Option FD × List (Endpoint × FD)) :=
  match k with
  | .unhashableSet _ => .error "TypeError: unhashable type: set"
  | .ep e =>
    match pydict.get? d e with
    | some fd => .ok (some fd, pydict.del d e)
    | none => .ok (none, d)

/-- The `for x in endpoints` loop of `Ports.close`, tracking the descriptors
handed to `os.close` and the exception, if one escapes; mutations made
before the exception persist, as in Python. -/
def closeLoop (d : List (Endpoint × FD)) (closed : List FD) :
    List CloseArg → List (Endpoint × FD) × List FD × Option String
  | [] => (d, closed, none)
  | x :: rest =>
    match dictPop d x with
    | .error e => (d, closed, some e)
    | .ok (some fd, d2) => closeLoop d2 (closed ++ [fd]) rest
    | .ok (none, d2) => closeLoop d2 closed rest

/-- `Ports.close(self, slot, *endpoints)` (library.py 4446-4456). -/
def Ports.close (sets : SetsMap) (slot : Slot) (endpoints : List CloseArg) :
    SetsMap × List FD × Option String :=
  let r := closeLoop (slotGet sets slot) [] endpoints
  (slotSet sets slot r.1, r.2.1, r.2.2)

/-- `Ports.replace(self, slot, *endpoints)` (library.py 4478-4494).  Python
sets are modelled as duplicate-free lists: `delta = new - current` is bound,
`removed = (current | delta) - new` is computed, and the final statement is
`self.close(slot, removed)` - the removed *set* is passed as a single
positional argument, so `close` receives the one-element tuple `(removed,)`. -/
def Ports.replace (sets : SetsMap) (slot : Slot) (endpoints : List Endpoint)
    (fds : List FD) : SetsMap × List FD × Option String :=
  let current := (slotGet sets slot).map (fun p => p.1)
  let delta := endpoints.filter (fun e => decide (e ∉ current))
  let sets1 := Ports.bind sets slot delta fds
  let current1 := current ++ delta
  let removed := current1.filter (fun e => decide (e ∉ endpoints))
  Ports.close sets1 slot [CloseArg.unhashableSet removed]

/-- C7: evaluating `replace` on a slot holding endpoint 1 at descriptor 3
with the new endpoint set consisting of endpoint 2: the delta is bound
(endpoint 2 gets descriptor 4), then `close(slot, removed)` passes the
removed set `[1]` as one positional argument; `dict.pop` raises `TypeError`
on the unhashable key, so descriptor 3 is never closed and endpoint 1 stays
bound - the slot does not equal the new endpoint set, against the claim. -/
theorem ports_replace_typeerror :
    Ports.replace [("srv", [(1, 3)])] "srv" [2] [4]
      = ([("srv", [(1, 3), (2, 4)])], [],
         some "TypeError: unhashable type: set") := by
  rfl

end ports

/-! ## library.Unit: the address namespace

`Unit.place`, `Unit.delete` and `Unit.listdir` (src/library.py 1486-1534).
The flat index maps address tuples to objects, the reverse index maps
objects back, and `u_hierarchy` is a tree of nested dicts. -/

namespace unitns

abbrev Addr := List String

abbrev Obj := Nat

/-- The nested-dict tree held in `u_hierarchy`. -/
inductive Hier where
  | node (entries : List (String × Hier))

/-- Child lookup: `p[x]` guarded by `x in p`. -/
def hsubdir (h : Hier) (x : String) : Option Hier :=
  match h with
  | .node es => pydict.get? es x

/-- Entry assignment `p[x] = c`. -/
def hset (h : Hier) (x : String) (c : Hier) : Hier :=
  match h with
  | .node es => .node (pydict.set es x c)

/-- The hierarchy walk of `Unit.place` (library.py 1493-1500): descend when
the component is present; otherwise assign an empty dict at the *current*
node (the loop variable `p` is not advanced in that branch) and continue
with the remaining components at the same node. -/
def hplace : Hier → List String → Hier
  | h, [] => h
  | h, x :: rest =>
    match hsubdir h x with
    | some c => hset h x (hplace c rest)
    | none => hplace (hset h x (.node [])) rest

/-- The walk of `Unit.listdir` (library.py 1518-1534): a missing component
breaks out and returns `None`; a completed walk returns `list(p.keys())`. -/
def hlist : Hier → List String → Option (List String)
  | .node es, [] => some (es.map (fun p => p.1))
  | h, x :: rest =>
    match hsubdir h x with
    | some c => hlist c rest
    | none => none

/-- The three Unit indexes the claims touch. -/
structure UnitState where
  u_index : List (Addr × Obj)
  u_hierarchy : Hier
  u_reverse_index : List (Obj × Addr)

/-- `Unit.place(self, obj, *destination)` (library.py 1486-1507): assign the
flat index entry, build out the hierarchy, and record the reverse-index
entry unless the destination is under `faults`.  For an empty destination
`destination[0]` raises IndexError and the flat-index assignment is rolled
back (`none`: the exception escapes, the state is unchanged). -/
def Unit.place (s : UnitState) (obj : Obj) (destination : Addr) :
    Option UnitState :=
  match destination.head? with
  | none => none
  | some d0 =>
    some { u_index := pydict.set s.u_index destination obj,
           u_hierarchy := hplace s.u_hierarchy destination,
           u_reverse_index :=
             if d0 = "faults" then s.u_reverse_index
             else pydict.set s.u_reverse_index obj destination }

/-- `Unit.delete(self, *address)` (library.py 1509-1516): look the object up
in the flat index, delete its reverse-index entry, then the flat entry. A
missing address or reverse-index entry raises KeyError (`none`); the
hierarchy is not touched on any path. -/
def Unit.delete (s : UnitState) (address : Addr) : Option UnitState :=
  match pydict.get? s.u_index address with
  | none => none
  | some obj =>
    if (pydict.get? s.u_reverse_index obj).isSome then
      some { u_index := pydict.del s.u_index address,
             u_hierarchy := s.u_hierarchy,
             u_reverse_index := pydict.del s.u_reverse_index obj }
    else none

/-- `Unit.listdir(self, *address)` (library.py 1518-1534). -/
def Unit.listdir (s : UnitState) (address : Addr) : Option (List String) :=
  hlist s.u_hierarchy address

/-- C10: `Unit.delete` removes the address from the flat index and the
reverse index only; the hierarchical mapping is left exactly as it was, so
every `listdir` result is unchanged - in particular a parent listing that
contained the deleted name still contains it. -/
theorem unit_delete_frame (s : UnitState) (a : Addr) (s2 : UnitState)
    (h : Unit.delete s a = some s2) :
    s2.u_hierarchy = s.u_hierarchy
    ∧ s2.u_index = pydict.del s.u_index a
    ∧ (∃ obj, pydict.get? s.u_index a = some obj
        ∧ s2.u_reverse_index = pydict.del s.u_reverse_index obj)
    ∧ (∀ addr, Unit.listdir s2 addr = Unit.listdir s addr)
    ∧ (∀ parent name l, a = parent ++ [name] →
        Unit.listdir s parent = some l → name ∈ l →
        Unit.listdir s2 parent = some l) := by
  cases hg : pydict.get? s.u_index a with
  | none =>
    unfold Unit.delete at h
    rw [hg] at h
    exact absurd h (by simp)
  | some obj =>
    unfold Unit.delete at h
    rw [hg] at h
    dsimp only at h
    split at h
    · next hrev =>
      injection h with h2
      subst h2
      refine ⟨rfl, rfl, ⟨obj, rfl, rfl⟩, fun addr => rfl, ?_⟩
      intro parent name l ha hl hm
      exact hl
    · exact absurd h (by simp)

/-- A Unit built by placing object 1 at `bin` and object 2 at `bin/x`. -/
def demoUnit : UnitState :=
  ((Unit.place { u_index := [], u_hierarchy := .node [], u_reverse_index := [] }
      1 ["bin"]).bind (fun s => Unit.place s 2 ["bin", "x"])).getD
    { u_index := [], u_hierarchy := .node [], u_reverse_index := [] }

/-- The state `Unit.delete(demoUnit, 'bin', 'x')` produces. -/
def demoDeleted : UnitState :=
  { u_index := pydict.del demoUnit.u_index ["bin", "x"],
    u_hierarchy := demoUnit.u_hierarchy,
    u_reverse_index := pydict.del demoUnit.u_reverse_index 2 }

/-- Witness for C10: deleting `bin/x` leaves the hierarchy as it was, and
`listdir('bin')` still lists the deleted name `x`. -/
theorem unit_delete_frame_witness :
    demoDeleted.u_hierarchy = demoUnit.u_hierarchy
    ∧ Unit.listdir demoDeleted ["bin"] = Unit.listdir demoUnit ["bin"]
    ∧ Unit.listdir demoUnit ["bin"] = some ["x"] := by
  have h := unit_delete_frame demoUnit ["bin", "x"] demoDeleted (by rfl)
  exact ⟨h.1, h.2.2.2.1 ["bin"], by rfl⟩

end unitns

/-! ## daemon.ProcessManager: fork-based worker pool

`ProcessManager` (src/daemon.py 14-93) with `Subprocess` from
src/dispatch.py.  Forking is modelled by logging a `ForkRecord` per
`process.Fork.dispatch` call; the child side (`ctl_forked`, daemon.py 69-82)
sets the `SECTORS` environment variable to `str(fork_id)`, recorded in the
same record.  Fresh pids are supplied by the caller. -/

namespace daemon

/-- The slice of `dispatch.Subprocess` that `xact_exit` reads:
`sp_processes` maps pid to the invocation (for worker forks, the fork id),
`sp_exit_status` maps pid to exit status. -/
structure Subp where
  sp_processes : List (Nat × Nat)
  sp_exit_status : List (Nat × Int)

/-- Property `Subprocess.sp_only` (dispatch.py 274-287): the exit status of
the only process of the set, `None` when the set exceeds one or no exit has
been recorded. -/
def sp_only (sub : Subp) : Option Int :=
  if sub.sp_processes.length > 1 then none
  else
    match sub.sp_exit_status with
    | [] => none
    | (_, st) :: _ => some st

/-- One `process.Fork.dispatch(self.ctl_forked, fid)` call: the fork id and
the `SECTORS` value the child sets (`os.environ["SECTORS"] = str(fork_id)`). -/
structure ForkRecord where
  fid : Nat
  sectorsEnv : String
deriving DecidableEq

/-- ProcessManager state: termination flag, fixed concurrency, the fork-id
to Subprocess map, the last-exit record per fork id, and the fork log. -/
structure PMState where
  terminating : Bool
  ctl_concurrency : Nat
  ctl_fork_id_to_subprocess : List (Nat × Subp)
  ctl_last_exit_status : List (Nat × (Nat × Option Int))
  forked : List ForkRecord

/-- `ProcessManager.ctl_fork(self, fid)` (daemon.py 53-67): dispatch the
fork (the child enters `ctl_forked(fid)` and sets `SECTORS`), then record a
one-pid Subprocess under the fork id.  `pid` is what the fork returned. -/
def ctl_fork (s : PMState) (fid : Nat) (pid : Nat) : PMState :=
  { s with
    forked := s.forked ++ [⟨fid, toString fid⟩],
    ctl_fork_id_to_subprocess :=
      pydict.set s.ctl_fork_id_to_subprocess fid ⟨[(pid, fid)], []⟩ }

/-- `ProcessManager.xact_exit(self, xact)` (daemon.py 31-47): return at once
when terminating; otherwise read the single `(pid, fid)` of the exited
Subprocess, drop it from the fork map, record `(pid, sub.sp_only)` as the
last exit of `fid`, and re-fork the same `fid` when
`fid < self.ctl_concurrency + 1`.  `newpid` is the re-forked child's pid.
(`next(iter(...))` on an empty process set would raise; worker Subprocesses
always hold exactly one pid.) -/
def xact_exit (s : PMState) (sub : Subp) (newpid : Nat) : PMState :=
  if s.terminating then s
  else
    match sub.sp_processes.head? with
    | none => s
    | some (pid, fid) =>
      let s1 := { s with
        ctl_fork_id_to_subprocess := pydict.del s.ctl_fork_id_to_subprocess fid }
      let s2 := { s1 with
        ctl_last_exit_status :=
          pydict.set s1.ctl_last_exit_status fid (pid, sp_only sub) }
      if fid < s2.ctl_concurrency + 1 then ctl_fork s2 fid newpid else s2

/-- C8: when a worker child with fork id `fid` exits and the manager is not
terminating, `fid ≤ concurrency` causes exactly one replacement fork of the
same `fid`, whose child sets `SECTORS = str(fid)`; a terminating manager
re-forks nothing (and a fork id above the concurrency is not restarted). -/
theorem process_manager_refork (s : PMState) (sub : Subp)
    (pid fid newpid : Nat) (hone : sub.sp_processes = [(pid, fid)]) :
    (s.terminating = false → fid ≤ s.ctl_concurrency →
      (xact_exit s sub newpid).forked = s.forked ++ [⟨fid, toString fid⟩]
      ∧ pydict.get? (xact_exit s sub newpid).ctl_fork_id_to_subprocess fid
          = some ⟨[(newpid, fid)], []⟩)
    ∧ (s.terminating = true → xact_exit s sub newpid = s)
    ∧ (s.terminating = false → s.ctl_concurrency < fid →
        (xact_exit s sub newpid).forked = s.forked) := by
  refine ⟨?_, ?_, ?_⟩
  · intro ht hle
    unfold xact_exit
    rw [ht, hone]
    dsimp only [List.head?]
    rw [if_neg (by simp)]
    rw [if_pos (Nat.lt_succ_of_le hle)]
    unfold ctl_fork
    exact ⟨rfl, pydict.get?_set_self _ fid _⟩
  · intro ht
    unfold xact_exit
    rw [ht]
    simp
  · intro ht hgt
    unfold xact_exit
    rw [ht, hone]
    dsimp only [List.head?]
    rw [if_neg (by simp)]
    rw [if_neg (by omega)]

/-- Witness for C8: a manager with concurrency 3, not terminating, sees the
worker with fork id 2 (pid 100) exit: exactly one replacement is forked with
fork id 2 and `SECTORS = "2"`; the same exit under a terminating manager
changes nothing. -/
theorem process_manager_refork_witness :
    ((xact_exit ⟨false, 3, [(2, ⟨[(100, 2)], [(100, 9)]⟩)], [], []⟩
        ⟨[(100, 2)], [(100, 9)]⟩ 200).forked = [⟨2, "2"⟩])
    ∧ xact_exit ⟨true, 3, [(2, ⟨[(100, 2)], [(100, 9)]⟩)], [], []⟩
        ⟨[(100, 2)], [(100, 9)]⟩ 200
      = ⟨true, 3, [(2, ⟨[(100, 2)], [(100, 9)]⟩)], [], []⟩ := by
  refine ⟨?_, ?_⟩
  · exact ((process_manager_refork _ _ 100 2 200 rfl).1 rfl (by decide)).1
  · exact (process_manager_refork _ ⟨[(100, 2)], [(100, 9)]⟩ 100 2 200 rfl).2.1 rfl

end daemon

/-! ## flows.Transports: protocol-stack drain and the deadlock check

`Transports.process` (src/flows.py 710-786).  Each layer of
`tf_operations` contributes callables `(xfer, this side has work, opposite
side has work)`; the booleans those callables return at each read are
supplied as inputs (`oppWork1` for the reads inside the transfer loop,
`oppWork2` for the re-reads of the deadlock check after the opposite side
was drained). -/

namespace transports

/-- One entry of `tf_operations` with the values its callables produce. -/
structure LayerOps where
  xfer : List Nat → List Nat
  oppWork1 : Bool
  oppWork2 : Bool

/-- The attributes of a `flows.Transports` instance that the deadlock check
consults.  `polarity` is the class attribute of line 668. -/
structure TransportsState where
  polarity : Int
  tf_polarity : Int
  tf_termination_index : Option Nat

/-- `Transports.__init__(self, polarity)` (flows.py 669-673): assigns
`self.tf_polarity = polarity` and `self.tf_termination_index = None`.  The
class attribute `polarity = 0` (line 668) is never shadowed on the instance,
neither here nor anywhere else in `src/flows.py`. -/
def Transports.init (polarity : Int) : TransportsState :=
  { polarity := 0, tf_polarity := polarity, tf_termination_index := none }

/-- `Transports.process(self, events)` (flows.py 710-786) up to the layer
popping loop: an empty stack passes events straight through; otherwise the
events are piped through every layer's `xfer` while `opposite_has_work`
tracks the `ops[2]()` reads, the result is emitted, and when the opposite
side had work it is drained recursively (`self._tf_opposite().process(())`,
which only mutates the opposite side) and re-checked: if work remains
(`x`), `self.polarity == -1` and the opposite side is terminating, the
source raises `Exception("transport stack deadlock")`.  The popping loop
after the check raises nothing and is not represented; the emitted events
are returned.  `oppTerminating` is `self._tf_opposite().terminating`. -/
def Transports.process (s : TransportsState) (tf_operations : List LayerOps)
    (events : List Nat) (oppTerminating : Bool) : Except String (List Nat) :=
  if tf_operations.isEmpty then
    .ok events
  else
    let events2 := tf_operations.foldl (fun evs ops => ops.xfer evs) events
    let opposite_has_work := tf_operations.any (fun ops => ops.oppWork1)
    if opposite_has_work then
      let x : Nat := if tf_operations.any (fun ops => ops.oppWork2) then 1 else 0
      if x ≠ 0 ∧ s.polarity = -1 ∧ oppTerminating then
        .error "transport stack deadlock"
      else
        .ok events2
    else
      .ok events2

/-- Whether a `process` result is the transport-stack-deadlock exception. -/
def isDeadlockError (r : Except String (List Nat)) : Bool :=
  match r with
  | .error e => decide (e = "transport stack deadlock")
  | .ok _ => false

/-- C2: the deadlock raise of `Transports.process` is unreachable.  Every
instance keeps the class attribute `polarity = 0` (`__init__` assigns only
`tf_polarity`), while the check at flows.py:752 reads `self.polarity == -1`;
so no call of `process` ever raises the transport-stack-deadlock error - in
particular not on the output side of a pair with pending opposite work and a
terminating input side, where the claim requires the fatal error. -/
theorem transports_deadlock_unreachable :
    (∀ p : Int, (Transports.init p).polarity = 0)
    ∧ (∀ (p : Int) (ops : List LayerOps) (events : List Nat) (t : Bool),
        isDeadlockError (Transports.process (Transports.init p) ops events t)
          = false)
    ∧ Transports.process (Transports.init (-1))
        [⟨id, true, true⟩] [5] true = .ok [5] := by
  refine ⟨fun p => rfl, ?_, rfl⟩
  intro p ops events t
  unfold Transports.process
  split
  · rfl
  · dsimp only
    have hne : ∀ x : Nat,
        ¬(x ≠ 0 ∧ (Transports.init p).polarity = -1 ∧ t = true) := by
      intro x hc
      have h01 : (0 : Int) = -1 := hc.2.1
      norm_num at h01
    split
    · split
      · rw [if_neg (hne 1)]; rfl
      · rw [if_neg (hne 0)]; rfl
    · rfl

end transports

/-! ## library.Processor / library.Sector: at-exit callbacks and interrupt

A labelled transition system over one Sector and its child processors,
embedding `Processor.atexit` / `exit_event_connect` / `exit_event_emit`
(src/library.py 961-1035), `Channel.terminate` and `Channel._f_terminated`
(src/flows.py 197-237), `Processor.interrupt` (library.py 916-931) and
`Sector.exited` / `Sector.reap` / `Sector.interrupt` (library.py
1678-1783).  The context task queue is the explicit FIFO `tasks`; invoking
a registered at-exit callback appends to the `fired` log. -/

namespace lifecycle

abbrev ProcId := Nat

abbrev CbId := Nat

/-- The lifecycle flags of one Processor.  In the source `terminating` is
`None` until termination starts and only its truthiness is read, so it is a
`Bool` here; `termination_started` / `termination_completed` are modelled
from the spec (lifecycle table of section 4.2 and note 9(a)): the former
sets `terminating`, the latter sets `terminating = False` and
`terminated = True`. -/
structure Proc where
  actuated : Bool
  terminating : Bool
  terminated : Bool
  interrupted : Bool
deriving DecidableEq

/-- A dispatched, functioning processor. -/
def freshProc : Proc := ⟨true, false, false, false⟩

/-- A task sitting in the context's FIFO queue. -/
inductive Task where
  | fTerminated (p : ProcId)
  | reap
  | runCallback (p : ProcId) (cb : CbId)
deriving DecidableEq

/-- One Sector with its children: processor objects (`procs` keeps every
object's flags, also after the sector drops it), the membership list, the
`exit_event_connections` dict, the pending `exits` set, the sector's own
interrupted flag, the context task FIFO, and the log of at-exit callback
invocations. -/
structure SectorState where
  procs : ProcId → Proc
  children : List ProcId
  exit_event_connections : List (ProcId × List CbId)
  exits : Option (List ProcId)
  interrupted : Bool
  tasks : List Task
  fired : List (ProcId × CbId)

/-- Replace one processor object's flags. -/
def setProc (s : SectorState) (p : ProcId) (pr : Proc) : SectorState :=
  { s with procs := fun q => if q = p then pr else s.procs q }

/-- `Processor.atexit(self, exit_callback)` (library.py 961-978): when the
processor has already terminated the callback is invoked at once, else it is
registered on the controller via `exit_event_connect` (library.py
1002-1016: `eec[processor] = eec.get(processor, ()) + (callback,)`). -/
def atexit (s : SectorState) (p : ProcId) (cb : CbId) : SectorState :=
  if (s.procs p).terminated then { s with fired := s.fired ++ [(p, cb)] }
  else
    { s with
      exit_event_connections :=
        pydict.set s.exit_event_connections p
          ((pydict.get? s.exit_event_connections p).getD [] ++ [cb]) }

/-- `Channel.terminate(self, by)` (flows.py 197-209): refused when
terminated, terminating or interrupted; otherwise `termination_started()`
runs and `self._f_terminated` is enqueued on the context. -/
def terminate (s : SectorState) (p : ProcId) : SectorState :=
  let pr := s.procs p
  if pr.terminated || pr.terminating || pr.interrupted then s
  else
    let s2 := setProc s p { pr with terminating := true }
    { s2 with tasks := s2.tasks ++ [Task.fTerminated p] }

/-- `Sector.exited(self, processor)` (library.py 1698-1707): on first use
create the exit set and enqueue `self.reap`; add the processor to the set. -/
def exited (s : SectorState) (p : ProcId) : SectorState :=
  match s.exits with
  | none => { s with exits := some [p], tasks := s.tasks ++ [Task.reap] }
  | some l => { s with exits := some (if p ∈ l then l else l ++ [p]) }

/-- `Channel._f_terminated(self)` (flows.py 219-237): `process` and `f_emit`
are rebound to the discarder (event delivery is outside this model),
`termination_completed()` runs (modelled from the spec: `terminating =
False`, `terminated = True`), and the exit is signalled to the controller
(`self.exit()`, modelled from the spec: `controller.exited(self)`). -/
def fTerminatedRun (s : SectorState) (p : ProcId) : SectorState :=
  let pr := s.procs p
  let s2 := setProc s p { pr with terminated := true, terminating := false }
  exited s2 p

/-- `Processor.interrupt(self, by)` (library.py 916-931): set the
interrupted flag (idempotent).  `terminated` is untouched; no exit and no
at-exit callback is signalled. -/
def interruptProc (s : SectorState) (p : ProcId) : SectorState :=
  let pr := s.procs p
  if pr.interrupted then s else setProc s p { pr with interrupted := true }

/-- `Sector.interrupt(self, by)` (library.py 1678-1696): mark the sector
interrupted and interrupt every child; exits are managed by the invoker, so
nothing is enqueued and nothing fires. -/
def sectorInterrupt (s : SectorState) : SectorState :=
  if s.interrupted then s
  else
    let s2 := { s with interrupted := true }
    s2.children.foldl interruptProc s2

/-- The body of the `for x in exits` loop of `Sector.reap` (library.py
1773-1776) with `exit_event_emit` (library.py 1026-1035) inlined: drop the
child from the sector, enqueue each connected at-exit callback on the
context queue, pop the connection entry. -/
def reapOne (st : SectorState) (x : ProcId) : SectorState :=
  let cbs := (pydict.get? st.exit_event_connections x).getD []
  { st with
    children := st.children.filter (fun q => decide (q ≠ x)),
    exit_event_connections := pydict.del st.exit_event_connections x,
    tasks := st.tasks ++ cbs.map (Task.runCallback x) }

/-- `Sector.reap(self)` (library.py 1759-1783): consume the exit set and
reap each member.  The completion check `reaped()` only maintains
sector-level flags this claim does not consult. -/
def reapRun (s : SectorState) : SectorState :=
  match s.exits with
  | none => s
  | some exits => exits.foldl reapOne { s with exits := none }

/-- Pop and execute one task of the context FIFO. -/
def runTask (s : SectorState) : SectorState :=
  match s.tasks with
  | [] => s
  | t :: rest =>
    let s1 := { s with tasks := rest }
    match t with
    | .fTerminated p => fTerminatedRun s1 p
    | .reap => reapRun s1
    | .runCallback p cb => { s1 with fired := s1.fired ++ [(p, cb)] }

/-- One externally driven step.  `upstreamTerminate` is `Channel.f_terminate`
arriving from upstream (flows.py 212-217), which runs `_f_terminated`
synchronously; it also covers the downstream notification that
`Channel.interrupt` (flows.py 239-253) performs on its connected
downstream. -/
inductive Step where
  | atexit (p : ProcId) (cb : CbId)
  | terminate (p : ProcId)
  | upstreamTerminate (p : ProcId)
  | interrupt (p : ProcId)
  | sectorInterrupt
  | runTask
deriving DecidableEq

/-- Dispatch one step. -/
def step (s : SectorState) : Step → SectorState
  | .atexit p cb => atexit s p cb
  | .terminate p => terminate s p
  | .upstreamTerminate p => fTerminatedRun s p
  | .interrupt p => interruptProc s p
  | .sectorInterrupt => sectorInterrupt s
  | .runTask => runTask s

/-- Run a trace of steps. -/
def run (s : SectorState) : List Step → SectorState
  | [] => s
  | a :: rest => run (step s a) rest

/-- A sector holding the given dispatched children, before any event. -/
def init (children : List ProcId) : SectorState :=
  { procs := fun _ => freshProc, children := children,
    exit_event_connections := [], exits := none, interrupted := false,
    tasks := [], fired := [] }

/-! ### Lemmas: terminated is monotone and callback firing requires it -/

theorem interruptProc_procs_terminated (s : SectorState) (q p : ProcId) :
    ((interruptProc s q).procs p).terminated = (s.procs p).terminated := by
  unfold interruptProc setProc
  dsimp only
  split
  · rfl
  · dsimp only
    by_cases h : p = q <;> simp [h]

theorem interruptProc_frame (s : SectorState) (q : ProcId) :
    (interruptProc s q).fired = s.fired ∧ (interruptProc s q).tasks = s.tasks
      ∧ (interruptProc s q).exits = s.exits := by
  unfold interruptProc setProc
  dsimp only
  split
  · exact ⟨rfl, rfl, rfl⟩
  · exact ⟨rfl, rfl, rfl⟩

theorem foldl_interrupt_procs_terminated (children : List ProcId) :
    ∀ (s : SectorState) (p : ProcId),
      ((children.foldl interruptProc s).procs p).terminated
        = (s.procs p).terminated := by
  induction children with
  | nil => intro s p; rfl
  | cons a t ih =>
    intro s p
    rw [List.foldl_cons, ih, interruptProc_procs_terminated]

theorem foldl_interrupt_frame (children : List ProcId) :
    ∀ s : SectorState,
      ((children.foldl interruptProc s).fired = s.fired)
      ∧ ((children.foldl interruptProc s).tasks = s.tasks)
      ∧ ((children.foldl interruptProc s).exits = s.exits) := by
  induction children with
  | nil => intro s; exact ⟨rfl, rfl, rfl⟩
  | cons a t ih =>
    intro s
    have h1 := interruptProc_frame s a
    have h2 := ih (interruptProc s a)
    rw [List.foldl_cons]
    exact ⟨h2.1.trans h1.1, h2.2.1.trans h1.2.1, h2.2.2.trans h1.2.2⟩

theorem sectorInterrupt_procs_terminated (s : SectorState) (p : ProcId) :
    ((sectorInterrupt s).procs p).terminated = (s.procs p).terminated := by
  unfold sectorInterrupt
  split
  · rfl
  · rw [foldl_interrupt_procs_terminated]

theorem sectorInterrupt_frame (s : SectorState) :
    ((sectorInterrupt s).fired = s.fired)
      ∧ ((sectorInterrupt s).tasks = s.tasks)
      ∧ ((sectorInterrupt s).exits = s.exits) := by
  unfold sectorInterrupt
  split
  · exact ⟨rfl, rfl, rfl⟩
  · exact foldl_interrupt_frame s.children { s with interrupted := true }

theorem terminate_procs_terminated (s : SectorState) (q p : ProcId) :
    ((terminate s q).procs p).terminated = (s.procs p).terminated := by
  unfold terminate setProc
  dsimp only
  split
  · rfl
  · dsimp only
    by_cases h : p = q <;> simp [h]

theorem exited_procs (s : SectorState) (q : ProcId) :
    (exited s q).procs = s.procs := by
  unfold exited
  cases s.exits <;> rfl

theorem exited_fired (s : SectorState) (q : ProcId) :
    (exited s q).fired = s.fired := by
  unfold exited
  cases s.exits <;> rfl

theorem exited_tasks_mem (s : SectorState) (q : ProcId) (t : Task)
    (hm : t ∈ (exited s q).tasks) : t ∈ s.tasks ∨ t = Task.reap := by
  cases hx : s.exits with
  | none =>
    unfold exited at hm
    rw [hx] at hm
    dsimp only at hm
    rcases List.mem_append.mp hm with h | h
    · exact Or.inl h
    · exact Or.inr (List.mem_singleton.mp h)
  | some l =>
    unfold exited at hm
    rw [hx] at hm
    exact Or.inl hm

theorem exited_exits_mem (s : SectorState) (q : ProcId) (p : ProcId)
    (hm : p ∈ (exited s q).exits.getD []) :
    p ∈ s.exits.getD [] ∨ p = q := by
  cases hx : s.exits with
  | none =>
    unfold exited at hm
    rw [hx] at hm
    dsimp only at hm
    exact Or.inr (List.mem_singleton.mp hm)
  | some l =>
    unfold exited at hm
    rw [hx] at hm
    dsimp only at hm
    by_cases hql : q ∈ l
    · rw [if_pos hql] at hm
      exact Or.inl hm
    · rw [if_neg hql] at hm
      rcases List.mem_append.mp hm with h | h
      · exact Or.inl h
      · exact Or.inr (List.mem_singleton.mp h)

theorem fTerminatedRun_procs_terminated (s : SectorState) (q p : ProcId) :
    ((fTerminatedRun s q).procs p).terminated
      = if p = q then true else (s.procs p).terminated := by
  unfold fTerminatedRun
  rw [exited_procs]
  unfold setProc
  dsimp only
  by_cases h : p = q <;> simp [h]

theorem fTerminatedRun_terminated_mono (s : SectorState) (q p : ProcId)
    (h : (s.procs p).terminated = true) :
    ((fTerminatedRun s q).procs p).terminated = true := by
  rw [fTerminatedRun_procs_terminated]
  by_cases hq : p = q <;> simp [hq, h]

theorem fTerminatedRun_fired (s : SectorState) (q : ProcId) :
    (fTerminatedRun s q).fired = s.fired := by
  unfold fTerminatedRun
  rw [exited_fired]
  rfl

theorem reapOne_tasks_mem (st : SectorState) (x : ProcId) (t : Task)
    (hm : t ∈ (reapOne st x).tasks) :
    t ∈ st.tasks ∨ ∃ cb, t = Task.runCallback x cb := by
  unfold reapOne at hm
  dsimp only at hm
  rcases List.mem_append.mp hm with h | h
  · exact Or.inl h
  · rcases List.mem_map.mp h with ⟨cb, _, hcb⟩
    exact Or.inr ⟨cb, hcb.symm⟩

/-- The invariant behind C5: every fired callback, every queued callback
task, and every member of the pending exit set belongs to a processor whose
`terminated` flag is set. -/
def TermInv (s : SectorState) : Prop :=
  (∀ p cb, (p, cb) ∈ s.fired → (s.procs p).terminated = true)
  ∧ (∀ p cb, Task.runCallback p cb ∈ s.tasks → (s.procs p).terminated = true)
  ∧ (∀ p, p ∈ s.exits.getD [] → (s.procs p).terminated = true)

theorem termInv_fTerminatedRun (s : SectorState) (q : ProcId)
    (h : TermInv s) : TermInv (fTerminatedRun s q) := by
  obtain ⟨h1, h2, h3⟩ := h
  have hset : ∀ p, ((setProc s q
      { s.procs q with terminated := true, terminating := false }).procs p).terminated
        = if p = q then true else (s.procs p).terminated := by
    intro p
    unfold setProc
    dsimp only
    by_cases hpq : p = q <;> simp [hpq]
  refine ⟨?_, ?_, ?_⟩
  · intro p cb hm
    rw [fTerminatedRun_fired] at hm
    exact fTerminatedRun_terminated_mono s q p (h1 p cb hm)
  · intro p cb hm
    rcases exited_tasks_mem _ q _ hm with hold | hreap
    · have : Task.runCallback p cb ∈ s.tasks := hold
      exact fTerminatedRun_terminated_mono s q p (h2 p cb this)
    · exact absurd hreap (by simp)
  · intro p hm
    rcases exited_exits_mem _ q p hm with hold | hq
    · have : p ∈ s.exits.getD [] := hold
      exact fTerminatedRun_terminated_mono s q p (h3 p this)
    · subst hq
      rw [fTerminatedRun_procs_terminated]
      simp

theorem reap_foldl_inv (ex : List ProcId) :
    ∀ st : SectorState,
      (∀ p cb, (p, cb) ∈ st.fired → (st.procs p).terminated = true) →
      (∀ p cb, Task.runCallback p cb ∈ st.tasks → (st.procs p).terminated = true) →
      (∀ x, x ∈ ex → (st.procs x).terminated = true) →
      ((ex.foldl reapOne st).procs = st.procs)
      ∧ ((ex.foldl reapOne st).fired = st.fired)
      ∧ ((ex.foldl reapOne st).exits = st.exits)
      ∧ (∀ p cb, Task.runCallback p cb ∈ (ex.foldl reapOne st).tasks →
          ((ex.foldl reapOne st).procs p).terminated = true) := by
  induction ex with
  | nil =>
    intro st hf ht hx
    exact ⟨rfl, rfl, rfl, fun p cb hm => ht p cb hm⟩
  | cons a rest ih =>
    intro st hf ht hx
    rw [List.foldl_cons]
    have hpa : (reapOne st a).procs = st.procs := rfl
    have hta : ∀ p cb, Task.runCallback p cb ∈ (reapOne st a).tasks →
        ((reapOne st a).procs p).terminated = true := by
      intro p cb hm
      rcases reapOne_tasks_mem st a _ hm with hold | ⟨cb2, heq⟩
      · exact ht p cb hold
      · have hpa2 : p = a := by
          injection heq with e1 e2
        rw [hpa, hpa2]
        exact hx a (List.mem_cons_self a rest)
    have := ih (reapOne st a)
      (by intro p cb hm; exact hf p cb hm)
      hta
      (by intro x hxm; exact hx x (List.mem_cons_of_mem a hxm))
    exact this

theorem termInv_step (s : SectorState) (a : Step) (h : TermInv s) :
    TermInv (step s a) := by
  obtain ⟨h1, h2, h3⟩ := h
  cases a with
  | atexit p cb =>
    show TermInv (atexit s p cb)
    unfold atexit
    split
    · next hterm =>
      refine ⟨?_, h2, h3⟩
      intro p2 cb2 hm
      rcases List.mem_append.mp hm with hold | hnew
      · exact h1 p2 cb2 hold
      · have e := List.mem_singleton.mp hnew
        injection e with e1 e2
        subst e1
        exact hterm
    · exact ⟨h1, h2, h3⟩
  | terminate p =>
    show TermInv (terminate s p)
    refine ⟨?_, ?_, ?_⟩
    · intro p2 cb2 hm
      rw [terminate_procs_terminated]
      unfold terminate at hm
      dsimp only at hm
      split at hm
      · exact h1 p2 cb2 hm
      · exact h1 p2 cb2 hm
    · intro p2 cb2 hm
      rw [terminate_procs_terminated]
      unfold terminate at hm
      dsimp only at hm
      split at hm
      · exact h2 p2 cb2 hm
      · dsimp only at hm
        rcases List.mem_append.mp hm with hold | hnew
        · exact h2 p2 cb2 hold
        · exact absurd (List.mem_singleton.mp hnew) (by simp)
    · intro p2 hm
      rw [terminate_procs_terminated]
      unfold terminate at hm
      dsimp only at hm
      split at hm
      · exact h3 p2 hm
      · exact h3 p2 hm
  | upstreamTerminate p =>
    exact termInv_fTerminatedRun s p ⟨h1, h2, h3⟩
  | interrupt p =>
    show TermInv (interruptProc s p)
    have hfr := interruptProc_frame s p
    refine ⟨?_, ?_, ?_⟩
    · intro p2 cb2 hm
      rw [interruptProc_procs_terminated]
      rw [hfr.1] at hm
      exact h1 p2 cb2 hm
    · intro p2 cb2 hm
      rw [interruptProc_procs_terminated]
      rw [hfr.2.1] at hm
      exact h2 p2 cb2 hm
    · intro p2 hm
      rw [interruptProc_procs_terminated]
      rw [hfr.2.2] at hm
      exact h3 p2 hm
  | sectorInterrupt =>
    show TermInv (sectorInterrupt s)
    have hfr := sectorInterrupt_frame s
    refine ⟨?_, ?_, ?_⟩
    · intro p2 cb2 hm
      rw [sectorInterrupt_procs_terminated]
      rw [hfr.1] at hm
      exact h1 p2 cb2 hm
    · intro p2 cb2 hm
      rw [sectorInterrupt_procs_terminated]
      rw [hfr.2.1] at hm
      exact h2 p2 cb2 hm
    · intro p2 hm
      rw [sectorInterrupt_procs_terminated]
      rw [hfr.2.2] at hm
      exact h3 p2 hm
  | runTask =>
    show TermInv (runTask s)
    unfold runTask
    cases htasks : s.tasks with
    | nil => exact ⟨h1, h2, h3⟩
    | cons t rest =>
      dsimp only
      have hrest : ∀ p cb, Task.runCallback p cb ∈ rest →
          (s.procs p).terminated = true := by
        intro p cb hm
        exact h2 p cb (htasks ▸ List.mem_cons_of_mem t hm)
      cases t with
      | fTerminated p =>
        exact termInv_fTerminatedRun { s with tasks := rest } p
          ⟨h1, hrest, h3⟩
      | reap =>
        show TermInv (reapRun { s with tasks := rest })
        unfold reapRun
        dsimp only
        cases hx : s.exits with
        | none =>
          exact ⟨h1, hrest, fun p hm => absurd hm (by simp)⟩
        | some ex =>
          have hexm : ∀ x, x ∈ ex → (s.procs x).terminated = true := by
            intro x hxm
            refine h3 x ?_
            rw [hx]
            exact hxm
          have hr := reap_foldl_inv ex
            { s with tasks := rest, exits := none }
            (by intro p cb hm; exact h1 p cb hm)
            (by intro p cb hm; exact hrest p cb hm)
            hexm
          refine ⟨?_, hr.2.2.2, ?_⟩
          · intro p cb hm
            rw [hr.1]
            rw [hr.2.1] at hm
            exact h1 p cb hm
          · intro p hm
            rw [hr.2.2.1] at hm
            exact absurd hm (by simp)
      | runCallback p cb =>
        refine ⟨?_, ?_, h3⟩
        · intro p2 cb2 hm
          rcases List.mem_append.mp hm with hold | hnew
          · exact h1 p2 cb2 hold
          · have e := List.mem_singleton.mp hnew
            injection e with e1 e2
            rw [e1]
            exact h2 p cb (htasks ▸ List.mem_cons_self _ _)
        · intro p2 cb2 hm
          exact hrest p2 cb2 hm

theorem termInv_run (tr : List Step) :
    ∀ s : SectorState, TermInv s → TermInv (run s tr) := by
  induction tr with
  | nil => intro s h; exact h
  | cons a rest ih => intro s h; exact ih (step s a) (termInv_step s a h)

theorem termInv_init (children : List ProcId) : TermInv (init children) := by
  refine ⟨?_, ?_, ?_⟩
  · intro p cb hm
    exact absurd hm (by simp [init])
  · intro p cb hm
    exact absurd hm (by simp [init])
  · intro p hm
    exact absurd hm (by simp [init])

/-- C5: over every trace of lifecycle events, a processor that has not
completed termination (`terminated` still false, as after an interrupt with
no termination) never has an at-exit callback invoked; and interrupting a
processor, directly or through its sector, sets `interrupted` without ever
touching the `terminated` flag of any processor. -/
theorem interrupted_no_atexit (children : List ProcId) (tr : List Step)
    (p : ProcId) :
    (((run (init children) tr).procs p).terminated = false →
      ∀ cb, (p, cb) ∉ (run (init children) tr).fired)
    ∧ (∀ (s : SectorState) (q : ProcId),
        ((interruptProc s q).procs p).terminated = (s.procs p).terminated
        ∧ ((sectorInterrupt s).procs p).terminated = (s.procs p).terminated
        ∧ ((interruptProc s q).procs q).interrupted = true) := by
  constructor
  · intro hterm cb hm
    have hinv := termInv_run tr (init children) (termInv_init children)
    have := hinv.1 p cb hm
    rw [hterm] at this
    exact Bool.noConfusion this
  · intro s q
    refine ⟨interruptProc_procs_terminated s q p,
      sectorInterrupt_procs_terminated s p, ?_⟩
    unfold interruptProc setProc
    dsimp only
    split
    · next hint => exact hint
    · simp

/-- Witness for C5: child 0 registers at-exit callback 5, then the sector is
interrupted; the processor ends not terminated and callback `(0, 5)` never
fires. -/
theorem interrupted_no_atexit_witness :
    (((run (init [0]) [Step.atexit 0 5, Step.sectorInterrupt]).procs 0).terminated
        = false)
    ∧ (0, 5) ∉ (run (init [0]) [Step.atexit 0 5, Step.sectorInterrupt]).fired
    ∧ ((run (init [0]) [Step.atexit 0 5, Step.sectorInterrupt]).procs 0).interrupted
        = true := by
  refine ⟨by decide, ?_, by decide⟩
  exact (interrupted_no_atexit [0] [Step.atexit 0 5, Step.sectorInterrupt] 0).1
    (by decide) 5

end lifecycle

/-! ## flows.Catenation: sequenced multiplexing

`Catenation` (src/flows.py 1211-1422) with the context task queue explicit.
Layers and upstream flows are numbered, payloads are lists of numbers, and
the downstream wire vocabulary is `WEvent`.  `ctx_enqueue_task` appends to
the FIFO `tasks`, which is the *shared* context queue: it also carries the
externally scheduled upstream events (a flow's emission reaching
`Catenation.process`, and a flow's termination reaching
`Catenation.f_terminate(context=flow)`).  Upstream-side effects
(`flow.f_connect(self)`, the `cat_overflowing` obstruction of a queued
upstream, `f.f_clear(self)`) mutate only the upstream flow objects and are
outside this state record.  A statement that raises before mutating
(KeyError, IndexError, a failed assert, `raise Exception(...)`) leaves the
state unchanged: the task trap routes the exception to `fault`. -/

namespace cat

abbrev Layer := Nat

abbrev FlowId := Nat

abbrev Payload := List Nat

/-- Downstream wire events (`Event.initiate` / `transfer` / `terminate`). -/
inductive WEvent where
  | initiate (l : Layer)
  | transfer (l : Layer) (p : Payload)
  | terminate (l : Layer)
deriving DecidableEq

/-- One `cat_connections` entry `(queue, layer, termination)`: the queue is
`None` for the head of line; the termination mark is `None` or `True` in
the source, a `Bool` here. -/
structure Conn where
  q : Option (List Payload)
  layer : Layer
  term : Bool
deriving DecidableEq

/-- A task in the shared context FIFO. -/
inductive CTask where
  | flush
  | drain
  | deliver (f : FlowId) (p : Payload)
  | upterm (f : FlowId)
deriving DecidableEq

/-- The Catenation state: `cat_order`, `cat_connections`, `cat_flows` and
`cat_events` as in the source, the termination flags, the shared task FIFO,
and the downstream's received-event log (`f_emit` target). -/
structure CatState where
  cat_order : List Layer
  cat_connections : List (FlowId × Conn)
  cat_flows : List (Layer × Option FlowId)
  cat_events : List WEvent
  terminating : Bool
  terminated : Bool
  tasks : List CTask
  emitted : List WEvent
deriving DecidableEq

/-- `self.ctx_enqueue_task(...)`: append to the context FIFO. -/
def enqueue (s : CatState) (t : CTask) : CatState :=
  { s with tasks := s.tasks ++ [t] }

/-- `Catenation.cat_flush(self)` (flows.py 1320-1330): hand the accumulated
events to `f_emit` (the downstream log) after resetting the buffer; in a
terminating state with no reservations left, `_f_terminated()` completes
termination. -/
def cat_flush (s : CatState) : CatState :=
  let events := s.cat_events
  let s1 := { s with cat_events := [] }
  let s2 := { s1 with emitted := s1.emitted ++ events }
  if s2.terminating && s2.cat_order.length == 0 then
    { s2 with terminated := true }
  else s2

/-- `Catenation.cat_reserve(self, layer)` (flows.py 1332-1338). -/
def cat_reserve (s : CatState) (layer : Layer) : CatState :=
  { s with cat_order := s.cat_order ++ [layer] }

/-- `Catenation.cat_transfer(self, events, source)` (flows.py 1261-1280):
when the source's layer equals `cat_order[0]` the transfer is appended to
`cat_events` (scheduling a flush if the buffer was empty); otherwise it is
pushed onto the source's queue (possibly obstructing the upstream, an
upstream-side effect). -/
def cat_transfer (s : CatState) (events : Payload) (source : FlowId) :
    CatState :=
  match pydict.get? s.cat_connections source with
  | none => s
  | some c =>
    match s.cat_order.head? with
    | none => s
    | some hol =>
      if c.layer = hol then
        let s1 := if s.cat_events.isEmpty then enqueue s .flush else s
        { s1 with cat_events :=
            s1.cat_events ++ [WEvent.transfer c.layer events] }
      else
        match c.q with
        | some q =>
          { s with
            cat_connections :=
              pydict.set s.cat_connections source
                ⟨some (q ++ [events]), c.layer, c.term⟩ }
        | none => s

/-- `Catenation.cat_transition(self)` (flows.py 1398-1422): pop the head of
line, drop its flow entry and connection, append the terminate event
(scheduling a flush if the buffer was empty), and when the next reserved
layer is already connected, enqueue `cat_drain`. -/
def cat_transition (s : CatState) : CatState :=
  match s.cat_order.head? with
  | none => s
  | some l =>
    let s1 := { s with cat_order := s.cat_order.tail }
    let f := (pydict.get? s1.cat_flows l).getD none
    let s2 := { s1 with cat_flows := pydict.del s1.cat_flows l }
    let s3 :=
      match f with
      | some ff =>
        { s2 with cat_connections := pydict.del s2.cat_connections ff }
      | none => s2
    let s4 := if s3.cat_events.isEmpty then enqueue s3 .flush else s3
    let s5 := { s4 with cat_events := s4.cat_events ++ [WEvent.terminate l] }
    match s5.cat_order.head? with
    | some nxt =>
      if (pydict.get? s5.cat_flows nxt).isSome then enqueue s5 .drain else s5
    | none => s5

/-- `Catenation.cat_drain(self)` (flows.py 1368-1396): emit the initiate of
the new head of line and its queued transfers in order; a stored
termination triggers `cat_transition` at once, otherwise the entry becomes
an immediate (queue-less) connection and the upstream is cleared. -/
def cat_drain (s : CatState) : CatState :=
  match s.cat_order.head? with
  | none => s
  | some hol =>
    match (pydict.get? s.cat_flows hol).getD none with
    | none => s
    | some f =>
      match pydict.get? s.cat_connections f with
      | none => s
      | some c =>
        match c.q with
        | none => s
        | some q =>
          let s1 := if s.cat_events.isEmpty then enqueue s .flush else s
          let s2 := { s1 with
            cat_events :=
              s1.cat_events ++ [WEvent.initiate c.layer]
                ++ q.map (fun pl => WEvent.transfer c.layer pl) }
          if c.term = false then
            { s2 with cat_connections :=
                pydict.set s2.cat_connections f ⟨none, c.layer, c.term⟩ }
          else
            cat_transition s2

/-- `Catenation.cat_connect(self, layer, flow)` (flows.py 1340-1366): a
head-of-line connect records a queue-less connection and appends the
initiate event (an empty-body `None` flow transitions at once); any other
layer records a queued connection. -/
def cat_connect (s : CatState) (layer : Layer) (flow : Option FlowId) :
    CatState :=
  match s.cat_order.head? with
  | none => s
  | some hol =>
    if hol = layer then
      let s1 :=
        match flow with
        | some f =>
          { s with cat_connections :=
              pydict.set s.cat_connections f ⟨none, layer, false⟩ }
        | none => s
      let s2 := { s1 with cat_flows := pydict.set s1.cat_flows layer flow }
      let s3 := if s2.cat_events.isEmpty then enqueue s2 .flush else s2
      let s4 := { s3 with cat_events := s3.cat_events ++ [WEvent.initiate layer] }
      match flow with
      | none => cat_transition s4
      | some _ => s4
    else
      let s1 := { s with cat_flows := pydict.set s.cat_flows layer flow }
      match flow with
      | some f =>
        { s1 with cat_connections :=
            pydict.set s1.cat_connections f ⟨some [], layer, false⟩ }
      | none => s1

/-- `Catenation.cat_terminate(self, subflow)` (flows.py 1291-1300). -/
def cat_terminate (s : CatState) (subflow : FlowId) : CatState :=
  match pydict.get? s.cat_connections subflow with
  | none => s
  | some c =>
    match s.cat_order.head? with
    | none => s
    | some hol =>
      if c.layer = hol then cat_transition s
      else
        { s with
          cat_connections :=
            pydict.set s.cat_connections subflow ⟨c.q, c.layer, true⟩ }

/-- `Catenation.f_terminate(self, context)` (flows.py 1302-1312). -/
def f_terminate (s : CatState) (context : Option FlowId) : CatState :=
  let cxn := context.bind (fun f => (pydict.get? s.cat_connections f).map
    (fun _ => f))
  match cxn with
  | some f => cat_terminate s f
  | none =>
    if s.terminating then s
    else cat_flush { s with terminating := true }

/-- `Catenation.process(self, events, source)` (flows.py 1282-1289): a
connected source's events are a transfer; anything else extends the
reservation order. -/
def Catenation.process (s : CatState) (events : Payload) (source : FlowId) :
    CatState :=
  if (pydict.get? s.cat_connections source).isSome then
    cat_transfer s events source
  else
    { s with cat_order := s.cat_order ++ events }

/-- Execute the task at the head of the context FIFO: the Catenation's own
`cat_flush`/`cat_drain` continuations, an upstream delivery reaching
`Catenation.process`, or an upstream termination reaching
`Catenation.f_terminate(context=flow)`. -/
def runCTask (s : CatState) : CatState :=
  match s.tasks with
  | [] => s
  | t :: rest =>
    let s1 := { s with tasks := rest }
    match t with
    | .flush => cat_flush s1
    | .drain => cat_drain s1
    | .deliver f p => Catenation.process s1 p f
    | .upterm f => f_terminate s1 (some f)

/-- A driver action: reservations and connects are performed directly by
the controlling code; upstream deliveries/terminations are scheduled on the
shared FIFO (`enq`); `run` executes the queue head. -/
inductive CAct where
  | reserve (l : Layer)
  | connect (l : Layer) (f : Option FlowId)
  | enq (t : CTask)
  | run
deriving DecidableEq

/-- Dispatch one driver action. -/
def catStep (s : CatState) : CAct → CatState
  | .reserve l => cat_reserve s l
  | .connect l f => cat_connect s l f
  | .enq t => enqueue s t
  | .run => runCTask s

/-- Run a sequence of driver actions. -/
def catRun (s : CatState) : List CAct → CatState
  | [] => s
  | a :: rest => catRun (catStep s a) rest

/-- A fresh Catenation (flows.py 1238-1244). -/
def catInit : CatState :=
  { cat_order := [], cat_connections := [], cat_flows := [], cat_events := [],
    terminating := false, terminated := false, tasks := [], emitted := [] }

/-- The failing schedule for C1: reserve layers 1 and 2, connect flow 10 to
layer 1 and flow 20 to layer 2; flow 10 delivers `[101]` and the queue
drains; then three upstream tasks are already enqueued when flow 10's
termination is processed - a second delivery of flow 20 (`[202]`) sits
behind it, and the FIFO runs it *between* `cat_transition` and the
`cat_drain` it enqueued. -/
def c1Trace : List CAct :=
  [ .reserve 1, .reserve 2,
    .connect 1 (some 10), .connect 2 (some 20),
    .enq (.deliver 10 [101]),
    .run, .run,
    .enq (.deliver 20 [201]),
    .enq (.upterm 10),
    .enq (.deliver 20 [202]),
    .run, .run, .run, .run, .run, .run, .run,
    .enq (.upterm 20),
    .run, .run ]

/-- C1: the downstream of a Catenation can observe events out of
reservation order.  Running the schedule `c1Trace`, the downstream log
contains `transfer(L2, [202])` *before* `initiate(L2)` and before the
earlier-produced `transfer(L2, [201])`: after `cat_transition` pops layer 1,
`cat_transfer` compares a source's layer against the new `cat_order[0]` and
appends directly to `cat_events` even though the layer's `cat_drain` is
still queued - breaking both the claimed
initiate/transfer/terminate bracketing and the upstream delivery order. -/
theorem catenation_interleaving :
    (catRun catInit c1Trace).emitted
      = [WEvent.initiate 1, WEvent.transfer 1 [101], WEvent.terminate 1,
         WEvent.transfer 2 [202], WEvent.initiate 2, WEvent.transfer 2 [201],
         WEvent.terminate 2] := by
  rfl

end cat

end PyKernel
